import Mathlib

/-!
Shallow embedding of the dc-build clinic discovery / deduplication /
classification pipeline.

Sources embedded here:
* `src/unnamed/part_007` — the state-by-state collection script
  (`gate`, `acceptByDermHeuristics`, `searchTextOnce`, `toClinic`,
  `collectState`, `main`);
* `src/lib/googlePlaces.ts` — the request gateway (`fetchWithBackoff`),
  text-search pagination (`searchDermClinicsText`), nearby search
  (`searchDermClinics`), the transform filter (`transformSinglePlace`)
  and grid generation (`generateGridPoints`, `round6`);
* `src/app/api/clinics/route.ts` — the open-now resolver
  (`calculateOpenNowFromWeekdayText`).

Effectful parts (HTTP fetch, clocks, the environment) are passed in as
explicit parameters; machine floats of the grid code are modelled over
exact rationals; unbounded JS loops are modelled with an explicit fuel
argument where the source has no bound of its own.
-/

namespace DCBuild

/-! ## String helpers (JS `String.prototype.includes` / `startsWith`) -/

/-- Predicate `startsWithCh pat l`: the character list `l` starts with `pat`
(JS `text.startsWith(pat)`). -/
def startsWithCh : List Char → List Char → Bool
  | [], _ => true
  | _ :: _, [] => false
  | a :: as, b :: bs => a == b && startsWithCh as bs

/-- Predicate `containsSub pat l`: some suffix of `l` starts with `pat`. -/
def containsSub (pat : List Char) : List Char → Bool
  | [] => startsWithCh pat []
  | b :: bs => startsWithCh pat (b :: bs) || containsSub pat bs

/-- JS `s.includes(pat)`. -/
def strContains (s pat : String) : Bool :=
  containsSub pat.toList s.toList

/-- JS `s.toLowerCase()` (all embedded text is ASCII). -/
def lowerStr (s : String) : String :=
  ⟨s.data.map Char.toLower⟩

/-! ## Data model

`Candidate` is one raw upstream place result, restricted to the fields
the embedded code paths read (`id`, `displayName.text`, `websiteUri`,
`types`).  `displayName` models `p.displayName?.text || ''` and
`websiteUri` models `p.websiteUri || ''`. -/

structure Candidate where
  id : Option String
  displayName : String
  websiteUri : String
  types : List String
deriving DecidableEq, Repr

/-- Canonical clinic entity, restricted to the fields the embedded
claims inspect. `place_id` is `p.id ?? null` in `toClinic`. -/
structure Clinic where
  place_id : Option String
  display_name : String
deriving DecidableEq, Repr

/-! ## Dermatology classifier — `acceptByDermHeuristics` (part_007, 85–159) -/

/-- RULE 1 exclude list (part_007 lines 93–97). -/
def excludeTerms : List String :=
  ["dental", "dentist", "orthodont", "oral surgery",
   "veterinary", "animal clinic", "pet clinic",
   "massage", "spa resort", "day spa", "nail salon"]

/-- RULE 3 core terms (part_007 lines 111–113). -/
def coreTerms : List String :=
  ["dermatology", "dermatologist", "dermatologic"]

/-- RULE 4 related terms (part_007 lines 122–128). -/
def relatedTerms : List String :=
  ["skin clinic", "skin center", "skin care clinic",
   "skin doctor", "skin specialist", "skin health",
   "medical dermatology", "cosmetic dermatology",
   "laser dermatology", "aesthetic dermatology",
   "mohs surgery", "skin cancer"]

/-- Lowercased `types` joined with spaces (part_007 line 88). -/
def candidateTypesText (p : Candidate) : String :=
  lowerStr (String.intercalate " " p.types)

/-- Combined text `` `${name} ${website} ${types}` `` of part_007 line 89. -/
def candidateSearchText (p : Candidate) : String :=
  lowerStr p.displayName ++ " " ++ lowerStr p.websiteUri ++ " " ++ candidateTypesText p

/-- Classifier `acceptByDermHeuristics` (part_007 lines 85–159). -/
def acceptByDermHeuristics (p : Candidate) : Bool :=
  let name := lowerStr p.displayName
  let website := lowerStr p.websiteUri
  let types := candidateTypesText p
  let searchText := candidateSearchText p
  -- RULE 1: exclude obvious non-derm places first
  if excludeTerms.any (fun term => strContains searchText term) then false
  -- RULE 2: accept if Place Type is skin_care_clinic
  else if strContains types "skin_care_clinic" then true
  -- RULE 3: high confidence — core dermatology terms
  else if coreTerms.any (fun term => strContains searchText term) then true
  -- RULE 4: medium confidence — related terms in name or website
  else if relatedTerms.any (fun term => strContains name term || strContains website term) then true
  else
    -- RULE 5: partial matches — need strong context
    let hasDerm := strContains searchText "derm"
    let hasSkin := strContains name "skin" || strContains website "skin"
    let medicalContext :=
      strContains types "doctor" ||
      strContains types "health" ||
      strContains searchText "medical" ||
      strContains searchText "clinic" ||
      strContains searchText "center"
    if (hasDerm || hasSkin) && medicalContext then
      let isStore :=
        strContains types "store" ||
        strContains types "beauty_supply_store" ||
        strContains searchText "beauty supply" ||
        strContains searchText "cosmetics store"
      !isStore
    else false

/-- Normalizer `toClinic` (part_007 lines 188–225), restricted to the fields of
`Clinic` above. -/
def toClinic (p : Candidate) : Clinic :=
  { place_id := p.id, display_name := p.displayName }

/-! ## part_007 collection run

The upstream Text Search endpoint is modelled as a function
`fetchPage : query → pageToken → Except String (places × nextPageToken)`;
an `Except.error msg` models `searchTextOnce` throwing
`"searchText failed: <status>"` on a non-ok response (part_007 line 183).

Mutable state of the run (`seen`, `clinics` per state; `REQUESTS`,
`GLOBAL_CLINICS` process-wide) is threaded explicitly. -/

/-- Upstream model for `searchTextOnce`. -/
def FetchPage : Type :=
  String → Option String → Except String (List Candidate × Option String)

structure CState where
  seen : List String
  clinics : List Clinic
  requests : Nat
  globalClinics : Nat
deriving DecidableEq, Repr

/-- A thrown JS exception: the message together with the state at the
throw point (the process-wide counters survive the unwind; the
per-state locals in it are simply dropped by the catch in `main`). -/
abbrev Thrown : Type := String × CState

deriving instance DecidableEq for Except

/-- The `for (const p of places)` body of `collectState`
(part_007 lines 246–265).  Returns the updated state together with a
flag recording whether the per-state-cap `break` fired, or throws
`"Global clinic cap hit"` (part_007 line 262).  `maxPerState` and
`maxGlobal` model `MAX_CLINICS_PER_STATE` / `MAX_CLINICS_GLOBAL`
(`0` = disabled, the JS falsiness check). -/
def processPlaces (maxPerState maxGlobal : Nat) :
    List Candidate → CState → Except Thrown (CState × Bool)
  | [], st => .ok (st, false)
  | p :: ps, st =>
    if acceptByDermHeuristics p = false then
      processPlaces maxPerState maxGlobal ps st
    else
      match p.id with
      | none => processPlaces maxPerState maxGlobal ps st
      | some id =>
        -- `if (id && !seen.has(id))`; `""` is falsy in JS
        if id = "" ∨ id ∈ st.seen then
          processPlaces maxPerState maxGlobal ps st
        else
          let st' : CState :=
            { st with
              seen := id :: st.seen
              clinics := st.clinics ++ [toClinic p]
              globalClinics := st.globalClinics + 1 }
          if maxPerState ≠ 0 ∧ maxPerState ≤ st'.clinics.length then
            .ok (st', true)
          else if maxGlobal ≠ 0 ∧ maxGlobal ≤ st'.globalClinics then
            .error ("Global clinic cap hit", st')
          else
            processPlaces maxPerState maxGlobal ps st'

/-- Token normalisation `data.nextPageToken || undefined` (part_007 line 267): the empty
string is falsy. -/
def normToken : Option String → Option String
  | none => none
  | some t => if t = "" then none else some t

/-- The `do … while (pageToken)` pagination loop of `collectState`
(part_007 lines 241–273) for one query.  `gate()` increments the
request counter before each fetch; the loop has NO page bound in the
source (`pagesForQuery` is incremented but never consulted), so the
model takes a `fuel` argument: `none` means the loop was still running
after `fuel` pages.  On the per-state-cap `break` the source sets
`pageToken = undefined` inside the loop, but line 267 immediately
overwrites it with `data.nextPageToken || undefined`, so the `break`
only skips the rest of the current page. -/
def queryPages (fetchPage : FetchPage) (maxPerState maxGlobal : Nat) (q : String) :
    Nat → Option String → CState → Option (Except Thrown CState)
  | 0, _, _ => none
  | fuel + 1, token, st =>
    let st1 : CState := { st with requests := st.requests + 1 }  -- gate()
    match fetchPage q token with
    | .error e => some (.error (e, st1))  -- `searchText failed: <status>`
    | .ok (places, nextTok) =>
      match processPlaces maxPerState maxGlobal places st1 with
      | .error e => some (.error e)
      | .ok (st2, _brk) =>
        match normToken nextTok with
        | none => some (.ok st2)
        | some t => queryPages fetchPage maxPerState maxGlobal q fuel (some t) st2

/-- The `for (const q of queries)` loop of `collectState`. -/
def queriesLoop (fetchPage : FetchPage) (maxPerState maxGlobal fuel : Nat) :
    List String → CState → Option (Except Thrown CState)
  | [], st => some (.ok st)
  | q :: qs, st =>
    match queryPages fetchPage maxPerState maxGlobal q fuel none st with
    | none => none
    | some (.error e) => some (.error e)
    | some (.ok st') => queriesLoop fetchPage maxPerState maxGlobal fuel qs st'

/-- The three per-state queries (part_007 lines 231–235). -/
def stateQueries (stateCode : String) : List String :=
  ["dermatology clinic in " ++ stateCode,
   "dermatologist in " ++ stateCode,
   "skin clinic in " ++ stateCode]

/-- Per-state collection `collectState` (part_007 lines 228–287): fresh `seen`/`clinics`,
process-wide counters threaded in and out.  On success the state's
payload (`clinics`) is written; a throw propagates to `main`'s catch
and the file is not written. -/
def collectState (fetchPage : FetchPage) (maxPerState maxGlobal fuel : Nat)
    (stateCode : String) (requests globalClinics : Nat) :
    Option (Except Thrown CState) :=
  queriesLoop fetchPage maxPerState maxGlobal fuel (stateQueries stateCode)
    { seen := [], clinics := [], requests := requests, globalClinics := globalClinics }

/-- The `for (const st of states)` loop of `main` (part_007 lines
301–319) with its catch: on an error whose message contains
`'Global clinic cap hit'` or `'Daily request cap hit'` the loop breaks,
otherwise it continues with the next state.  Returns the list of
written per-state payloads and the final `REQUESTS` counter, or `none`
when some pagination loop never finished. -/
def mainLoop (fetchPage : FetchPage) (maxPerState maxGlobal fuel : Nat) :
    List String → Nat → Nat → Option (List (String × List Clinic) × Nat)
  | [], requests, _ => some ([], requests)
  | stCode :: rest, requests, globalClinics =>
    match collectState fetchPage maxPerState maxGlobal fuel stCode requests globalClinics with
    | none => none
    | some (.error (msg, stE)) =>
      if strContains msg "Global clinic cap hit" || strContains msg "Daily request cap hit" then
        some ([], stE.requests)  -- break out of the state loop
      else
        mainLoop fetchPage maxPerState maxGlobal fuel rest stE.requests stE.globalClinics
    | some (.ok st') =>
      match mainLoop fetchPage maxPerState maxGlobal fuel rest st'.requests st'.globalClinics with
      | none => none
      | some (written, reqs) => some ((stCode, st'.clinics) :: written, reqs)

/-- The whole run.  `maxRequests` models the configured
`PLACES_MAX_REQUESTS` (`MAX_REQUESTS`, part_007 line 54): the source
reads it, prints it, and `main`'s catch looks for a
`'Daily request cap hit'` message — but `gate()` (lines 60–63) only
increments `REQUESTS` and never compares it to `MAX_REQUESTS`, so no
code path consults the value; accordingly the model never reads this
parameter. -/
def mainRun (_maxRequests : Nat) (fetchPage : FetchPage) (maxPerState maxGlobal fuel : Nat)
    (states : List String) : Option (List (String × List Clinic) × Nat) :=
  mainLoop fetchPage maxPerState maxGlobal fuel states 0 0

/-! ## googlePlaces.ts — throttled request gateway

`fetchWithBackoff` (lines 23–55).  The upstream is a function `resp`
from the call index (0-based) to the HTTP status of that call; real
time (sleeps) is not represented, but the computed base backoff value
is (`backoffDelay`).  `remaining` is `maxRetries - attempt`, so the
source's `attempt < maxRetries` is `remaining ≠ 0`. -/

/-- JS `Response.ok`: status in the range 200–299. -/
def respOk (s : Nat) : Bool := 200 ≤ s && s < 300

/-- Retry test `res.status === 429 || (res.status >= 500 && res.status < 600)`. -/
def retryableStatus (s : Nat) : Bool := s == 429 || (500 ≤ s && s < 600)

/-- The `while (true)` loop of `fetchWithBackoff`; returns the final
status and the number of fetch calls made. -/
def backoffGo (resp : Nat → Nat) : Nat → Nat → Nat × Nat
  | remaining, call =>
    let s := resp call
    if respOk s then (s, call + 1)
    else if retryableStatus s then
      match remaining with
      | 0 => (s, call + 1)          -- give up: return the last failing response
      | r + 1 => backoffGo resp r (call + 1)
    else (s, call + 1)              -- non-retryable: return as-is

/-- Gateway `fetchWithBackoff` with its `maxRetries` option (default 5). -/
def fetchWithBackoff (resp : Nat → Nat) (maxRetries : Nat) : Nat × Nat :=
  backoffGo resp maxRetries 0

/-- The base backoff of attempt `a`: `500 * Math.pow(2, attempt)`
(line 45); the random jitter in `[0, 250)` is additive on top. -/
def backoffDelay (attempt : Nat) : Nat := 500 * 2 ^ attempt

/-! ## googlePlaces.ts — transform filter and collectors -/

/-- Heuristic term list `DERM_TERMS` (googlePlaces.ts lines 66–76). -/
def DERM_TERMS : List String :=
  ["dermatology", "dermatologist", "derma",
   "skin clinic", "skin center", "medical dermatology",
   "cosmetic dermatology", "laser dermatology", "skin care"]

/-- Transform `transformSinglePlace` (googlePlaces.ts lines 379–448): `none`
models returning `null` (no id — `""` is falsy — or the heuristic
filter rejecting).  Note `types.includes('skin_care_clinic')` here is
`Array.prototype.includes`, i.e. exact element membership, unlike the
joined-string search of part_007. -/
def transformSinglePlace (place : Candidate) : Option Clinic :=
  match place.id with
  | none => none
  | some pid =>
    if pid = "" then none
    else
      let lowerName := lowerStr place.displayName
      let lowerSite := lowerStr place.websiteUri
      let hasDermTerm :=
        DERM_TERMS.any (fun t => strContains lowerName t) ||
        strContains lowerName "derm" ||
        strContains lowerName "skin" ||
        strContains lowerSite "derm" ||
        strContains lowerSite "skin"
      let isDermatology := place.types.contains "skin_care_clinic" || hasDermTerm
      if isDermatology then
        some { place_id := some pid, display_name := place.displayName }
      else none

/-- Batch transform `transformPlacesResponse` (lines 371–373). -/
def transformPlacesResponse (places : List Candidate) : List Clinic :=
  places.filterMap transformSinglePlace

/-- Nearby search `searchDermClinics` (googlePlaces.ts lines 96–163).  Effects are
parameters: `apiKey` is the environment key (`""` when missing, which
throws inside the `try`); `net` is `.error` when `fetch` itself (or
`response.json()`) throws, otherwise the status sequence seen by
`fetchWithBackoff`; `body` is `.error` when reading/transforming the
payload throws.  Every throw lands in the `catch`, which returns `[]`. -/
def searchDermClinics (apiKey : String) (net : Except String (Nat → Nat))
    (body : Except String (List Candidate)) : List Clinic :=
  if apiKey = "" then []
  else
    match net with
    | .error _ => []
    | .ok resp =>
      let s := (fetchWithBackoff resp 5).1
      if respOk s then
        match body with
        | .error _ => []
        | .ok places => transformPlacesResponse places
      else []  -- `throw new Error("Places API error: …")` → catch → []

/-- One step of the dedup fold in `searchDermClinicsText`
(lines 247–252): `seen` is the `Set<string>` of `place_id`s. -/
def textDedup : List (Option String) × List Clinic → List Clinic → List (Option String) × List Clinic
  | st, [] => st
  | (seen, all), c :: cs =>
    if c.place_id ∈ seen then textDedup (seen, all) cs
    else textDedup (c.place_id :: seen, all ++ [c]) cs

/-- A page fetcher for `searchDermClinicsTextPage`: query and page
token to raw places and `nextPageToken` (already `null`-normalised,
lines 169–227). -/
def TextPageFn : Type := String → Option String → List Candidate × Option String

/-- The `do … while (pageToken && pagesFetched < pageLimitPerQuery)`
loop of `searchDermClinicsText` (lines 244–255) for one query: the
body (fetch one page, transform, dedup into `seen`/`all`) always runs
once, and the loop continues exactly when a token remains and
`pagesFetched < limit`.  `rem` is `pageLimitPerQuery - pagesFetched`
at the start of the body, so the post-body test is `2 ≤ rem`; with
`rem ≤ 1` the body still runs once and then stops regardless of the
token.  Returns the updated `(seen, all)` and the pages fetched. -/
def textQueryGo (pageFn : TextPageFn) (q : String) :
    Nat → Option String → List (Option String) × List Clinic →
    (List (Option String) × List Clinic) × Nat
  | r + 2, token, st =>
    let (places, nextTok) := pageFn q token
    let st' := textDedup st (transformPlacesResponse places)
    match nextTok with
    | some t =>
      let (st'', n) := textQueryGo pageFn q (r + 1) (some t) st'
      (st'', n + 1)
    | none => (st', 1)
  | _, token, st =>
    let (places, _) := pageFn q token
    (textDedup st (transformPlacesResponse places), 1)

/-- The `for (const q of queries)` loop of `searchDermClinicsText`. -/
def textQueriesGo (pageFn : TextPageFn) (limit : Nat) :
    List String → List (Option String) × List Clinic → List (Option String) × List Clinic
  | [], st => st
  | q :: qs, st => textQueriesGo pageFn limit qs (textQueryGo pageFn q limit none st).1

/-- Text search `searchDermClinicsText` (googlePlaces.ts lines 233–259): shared
`seen`/`all` across all queries and pages of one call. -/
def searchDermClinicsText (pageFn : TextPageFn) (queries : List String)
    (pageLimitPerQuery : Nat) : List Clinic :=
  (textQueriesGo pageFn pageLimitPerQuery queries ([], [])).2

/-! ## googlePlaces.ts — grid generation

`generateGridPoints` / `round6` (lines 454–466), modelled over exact
rationals.  The source's JS doubles drift from the exact values by far
less than the `1e-9` epsilon that guards the loop bound, and `round6`
snaps each emitted coordinate to 6 decimals, so the exact-rational
model produces the same point lists as the double-precision loop for
step sizes that are multiples of `1e-6`.  The `for (…; lat <= max +
1e-9; lat += step)` loop has no intrinsic bound in ℚ, so it takes a
fuel argument (any fuel above the number of steps yields the full
list). -/

structure Bounds where
  minLat : ℚ
  maxLat : ℚ
  minLng : ℚ
  maxLng : ℚ

/-- Rounding `round6` (lines 464–466): `Math.round(n * 1e6) / 1e6`. -/
def round6 (n : ℚ) : ℚ := (round (n * 1000000) : ℤ) / 1000000

/-- One axis of the `for` loop: values `v, v+step, …` while
`v ≤ maxV + 1e-9`. -/
def gridAxis (maxV step : ℚ) : Nat → ℚ → List ℚ
  | 0, _ => []
  | fuel + 1, v =>
    if v ≤ maxV + 1 / 1000000000 then v :: gridAxis maxV step fuel (v + step)
    else []

/-- Grid sweep `generateGridPoints` (lines 454–462): Cartesian product of the two
axis loops, each emitted point rounded to 6 decimals. -/
def generateGridPoints (bounds : Bounds) (stepDeg : ℚ) (fuel : Nat) : List (ℚ × ℚ) :=
  (gridAxis bounds.maxLat stepDeg fuel bounds.minLat).flatMap fun lat =>
    (gridAxis bounds.maxLng stepDeg fuel bounds.minLng).map fun lng =>
      (round6 lat, round6 lng)

/-! ## route.ts — open-now resolver

`calculateOpenNowFromWeekdayText` (route.ts lines 91–157).  The
`Intl.DateTimeFormat` clock readout is passed in as the current
weekday name and the current minutes since local midnight.  The regex
`/(\d{1,2}):(\d{2})\s*(AM|PM)\s*[-–—]\s*(\d{1,2}):(\d{2})\s*(AM|PM)/i`
is embedded as an explicit leftmost-match parser; `\d{1,2}` is greedy
(two digits tried before one), and after a full `H:MM AM/PM` sub-match
no cross-group backtracking can change the outcome (a second digit
blocks the `:` that the one-digit alternative would need). -/

def digitVal (c : Char) : Nat := c.toNat - 48

/-- Regex atom `\d{2}`. -/
def twoDigits : List Char → Option (Nat × List Char)
  | a :: b :: rest =>
    if a.isDigit && b.isDigit then some (digitVal a * 10 + digitVal b, rest) else none
  | _ => none

/-- Regex atom `\s*` (greedy; every following atom is a non-space). -/
def skipWs (l : List Char) : List Char := l.dropWhile Char.isWhitespace

/-- Regex atom `(AM|PM)` case-insensitively; `true` means PM. -/
def ampm : List Char → Option (Bool × List Char)
  | c1 :: c2 :: rest =>
    if (c1 == 'A' || c1 == 'a') && (c2 == 'M' || c2 == 'm') then some (false, rest)
    else if (c1 == 'P' || c1 == 'p') && (c2 == 'M' || c2 == 'm') then some (true, rest)
    else none
  | _ => none

/-- Regex atom `\d{1,2}`, greedy: candidate parses in regex preference order. -/
def hourCandidates : List Char → List (Nat × List Char)
  | a :: b :: rest =>
    (if a.isDigit && b.isDigit then [(digitVal a * 10 + digitVal b, rest)] else []) ++
    (if a.isDigit then [(digitVal a, b :: rest)] else [])
  | [a] => if a.isDigit then [(digitVal a, [])] else []
  | [] => []

/-- After the hour: `:` `\d{2}` `\s*` `(AM|PM)`. -/
def timeTail (h : Nat) : List Char → Option (Nat × Nat × Bool × List Char)
  | ':' :: r =>
    match twoDigits r with
    | some (m, r2) =>
      match ampm (skipWs r2) with
      | some (pm, r3) => some (h, m, pm, r3)
      | none => none
    | none => none
  | _ => none

/-- One `H:MM AM/PM` group at the current position. -/
def timeAt (l : List Char) : Option (Nat × Nat × Bool × List Char) :=
  (hourCandidates l).findSome? fun hr => timeTail hr.1 hr.2

/-- Regex atom `[-–—]`. -/
def isDashCh (c : Char) : Bool := c == '-' || c == '–' || c == '—'

/-- Parsed match groups of the time-range regex. -/
structure TimeGroups where
  openH : Nat
  openM : Nat
  openPM : Bool
  closeH : Nat
  closeM : Nat
  closePM : Bool
deriving DecidableEq, Repr

/-- The whole pattern anchored at the current position. -/
def rangeAt (l : List Char) : Option TimeGroups :=
  match timeAt l with
  | none => none
  | some (h1, m1, pm1, r) =>
    match skipWs r with
    | [] => none
    | d :: r2 =>
      if isDashCh d then
        match timeAt (skipWs r2) with
        | some (h2, m2, pm2, _) => some ⟨h1, m1, pm1, h2, m2, pm2⟩
        | none => none
      else none

/-- Leftmost match anywhere in the string (`String.prototype.match`). -/
def findRange : List Char → Option TimeGroups
  | [] => none
  | c :: rest =>
    match rangeAt (c :: rest) with
    | some g => some g
    | none => findRange rest

/-- Regex search `todayHours.match(/(\d{1,2}):(\d{2})\s*(AM|PM)\s*[-–—]\s*(\d{1,2}):(\d{2})\s*(AM|PM)/i)`. -/
def timeRangeMatch (s : String) : Option TimeGroups :=
  findRange s.toList

/-- The AM/PM → minutes-since-midnight conversion of route.ts lines
134–149, applied identically to both endpoints: start from
`h * 60 + m`, add 720 for PM hours other than 12, and overwrite with
`m` for 12 AM. -/
def to24 (h m : Nat) (isPM : Bool) : Nat :=
  let t := h * 60 + m
  let t := if isPM && h != 12 then t + 12 * 60 else t
  if (!isPM) && h == 12 then m else t

/-- The predicate of `weekdayText.find(text => text.startsWith(weekday))`
(route.ts line 115). -/
def weekdayPred (weekday : String) : String → Bool :=
  fun text => startsWithCh weekday.toList text.toList

/-- Resolver `calculateOpenNowFromWeekdayText` (route.ts lines 91–157), with
the clock readout (`weekday`, `currentTime` in minutes since local
midnight) as parameters. -/
def calculateOpenNowFromWeekdayText (weekdayText : List String)
    (weekday : String) (currentTime : Nat) : Bool :=
  if weekdayText.isEmpty then false
  else
    match weekdayText.find? (weekdayPred weekday) with
    | none => false
    | some todayHours =>
      if strContains (lowerStr todayHours) "closed" then false
      else
        match timeRangeMatch todayHours with
        | none => false  -- log a warning and fail closed
        | some g =>
          let openTime := to24 g.openH g.openM g.openPM
          let closeTime := to24 g.closeH g.closeM g.closePM
          decide (openTime ≤ currentTime) && decide (currentTime < closeTime)

/-! ## Concrete inputs used by counterexamples and witnesses -/

/-- A veterinary-dermatology practice: its text contains the bare word
"pet" (and "dermatology") but not "pet clinic". -/
def petDerm : Candidate := ⟨some "x2", "Pet Dermatology Clinic", "", []⟩

/-- A business containing the exclude term "dental" together with the
core term "dermatology". -/
def smithDental : Candidate := ⟨some "x3", "Smith Dental & Dermatology Associates", "", []⟩

/-- A business whose text contains "derma" but no core term, no
related term and no medical context. -/
def dermaBoutique : Candidate := ⟨some "x1", "Derma Boutique", "", []⟩

/-- The spec's own positive classifier scenario. -/
def brightSkin : Candidate := ⟨some "x4", "Bright Skin Dermatology Center", "", ["doctor"]⟩

/-- One dermatology clinic discoverable from several jurisdictions. -/
def sharedCand : Candidate := ⟨some "PID1", "Dermatology Associates", "", []⟩

/-- An upstream that returns the same single-place page, with no
continuation token, for every query of every state. -/
def upstream1 : FetchPage := fun _ _ => .ok ([sharedCand], none)

/-- The `CState` at the end of `collectState` for one state under
`upstream1` (3 queries, one page each, the shared candidate stored
once). -/
def nyRunState : CState :=
  { seen := ["PID1"], clinics := [toClinic sharedCand], requests := 3, globalClinics := 1 }

/-! ## C3 — exclusion dominates, but over the code's term list -/

/-- C3 counterexample: the claim's exclude list contains the bare term
"pet", and `petDerm`'s combined text does contain "pet", yet the
classifier accepts it (the code's list only has "pet clinic"), even
though the claim requires `accept = false` for every candidate whose
text contains an exclude term. -/
theorem c3_counterexample :
    strContains (candidateSearchText petDerm) "pet" = true ∧
    acceptByDermHeuristics petDerm = true := by
  constructor <;> decide

/-- C3 (amended): for every candidate whose combined lowercase
name + website + type text contains one of the code's exclude terms
(dental, dentist, orthodont, oral surgery, veterinary, "animal
clinic", "pet clinic", massage, "spa resort", "day spa", "nail
salon"), `acceptByDermHeuristics` returns `false`, regardless of any
core or related dermatology term in the same text. -/
theorem c3_exclude_dominates (p : Candidate)
    (h : excludeTerms.any (fun term => strContains (candidateSearchText p) term) = true) :
    acceptByDermHeuristics p = false := by
  simp only [acceptByDermHeuristics]
  rw [if_pos]
  exact h

/-- C3 witness: "Smith Dental & Dermatology Associates" contains the
exclude term "dental" (and the core term "dermatology") and is
rejected. -/
theorem c3_exclude_dominates_witness :
    excludeTerms.any (fun term => strContains (candidateSearchText smithDental) term) = true ∧
    strContains (candidateSearchText smithDental) "dermatology" = true ∧
    acceptByDermHeuristics smithDental = false :=
  ⟨by decide, by decide, c3_exclude_dominates smithDental (by decide)⟩

/-! ## C4 — core terms accept, but "derma" is not a core term -/

/-- C4 counterexample: "Derma Boutique" contains no exclude term and
contains "derma", which the claim lists as a core term that accepts
with no further corroboration — but the classifier rejects it ("derma"
only feeds RULE 5, which demands medical context). -/
theorem c4_counterexample :
    excludeTerms.any (fun term => strContains (candidateSearchText dermaBoutique) term) = false ∧
    strContains (candidateSearchText dermaBoutique) "derma" = true ∧
    acceptByDermHeuristics dermaBoutique = false := by
  refine ⟨by decide, by decide, by decide⟩

/-- C4 (amended): for every candidate containing no exclude term, if
its combined text contains one of the code's core terms — dermatology,
dermatologist, dermatologic (not the bare "derma") — then
`acceptByDermHeuristics` returns `true` with no further medical-context
corroboration. -/
theorem c4_core_terms_accept (p : Candidate)
    (h1 : excludeTerms.any (fun term => strContains (candidateSearchText p) term) = false)
    (h2 : coreTerms.any (fun term => strContains (candidateSearchText p) term) = true) :
    acceptByDermHeuristics p = true := by
  simp only [acceptByDermHeuristics, h1, h2]
  simp

/-- C4 witness: "Bright Skin Dermatology Center" has no exclude term,
contains the core term "dermatology", and is accepted. -/
theorem c4_core_terms_accept_witness :
    excludeTerms.any (fun term => strContains (candidateSearchText brightSkin) term) = false ∧
    coreTerms.any (fun term => strContains (candidateSearchText brightSkin) term) = true ∧
    acceptByDermHeuristics brightSkin = true :=
  ⟨by decide, by decide, c4_core_terms_accept brightSkin (by decide) (by decide)⟩

/-! ## C7 — retry policy of the gateway -/

/-- One-step unfolding of the `while (true)` loop. -/
theorem backoffGo_unfold (resp : Nat → Nat) (rem call : Nat) :
    backoffGo resp rem call =
      (let s := resp call
       if respOk s then (s, call + 1)
       else if retryableStatus s then
         (match rem with
          | 0 => (s, call + 1)
          | r + 1 => backoffGo resp r (call + 1))
       else (s, call + 1)) := by
  cases rem <;> rfl

theorem retryable_not_ok {s : Nat} (h : retryableStatus s = true) : respOk s = false := by
  simp only [retryableStatus, Bool.or_eq_true, beq_iff_eq, Bool.and_eq_true,
    decide_eq_true_eq] at h
  simp only [respOk, Bool.and_eq_true, decide_eq_true_eq, Bool.and_eq_false_iff,
    decide_eq_false_iff_not]
  omega

theorem backoffGo_all_retryable (resp : Nat → Nat)
    (hr : ∀ k, retryableStatus (resp k) = true) :
    ∀ rem call, backoffGo resp rem call = (resp (call + rem), call + rem + 1) := by
  intro rem
  induction rem with
  | zero =>
    intro call
    rw [backoffGo_unfold]
    simp [retryable_not_ok (hr call), hr call]
  | succ r ih =>
    intro call
    rw [backoffGo_unfold]
    simp only [retryable_not_ok (hr call), hr call, Bool.false_eq_true, if_false, if_true]
    rw [ih (call + 1)]
    have h1 : call + 1 + r = call + (r + 1) := by omega
    rw [h1]

/-- C7: the gateway retries only on 429/5xx — any other non-2xx
response is returned as-is after a single call; when every response is
retryable it makes `maxRetries + 1` calls and returns the last failing
response (it never raises: `fetchWithBackoff` is a total function into
status × call count); and the base backoff doubles with each attempt. -/
theorem c7_backoff_policy :
    (∀ (resp : Nat → Nat) (n : Nat),
       respOk (resp 0) = false → retryableStatus (resp 0) = false →
       fetchWithBackoff resp n = (resp 0, 1)) ∧
    (∀ (resp : Nat → Nat) (n : Nat),
       (∀ k, retryableStatus (resp k) = true) →
       fetchWithBackoff resp n = (resp n, n + 1)) ∧
    (∀ a, backoffDelay (a + 1) = 2 * backoffDelay a) := by
  refine ⟨?_, ?_, ?_⟩
  · intro resp n h1 h2
    rw [fetchWithBackoff, backoffGo_unfold]
    simp [h1, h2]
  · intro resp n hr
    rw [fetchWithBackoff, backoffGo_all_retryable resp hr n 0]
    simp
  · intro a
    simp [backoffDelay, pow_succ]
    ring

/-- C7 witness: a 404 is returned immediately after one call; a
permanent 429 exhausts the 5 retries and the last 429 is returned
after 6 calls; the second backoff is twice the first. -/
theorem c7_backoff_policy_witness :
    fetchWithBackoff (fun _ => 404) 5 = (404, 1) ∧
    fetchWithBackoff (fun _ => 429) 5 = (429, 6) ∧
    backoffDelay 1 = 2 * backoffDelay 0 :=
  ⟨c7_backoff_policy.1 (fun _ => 404) 5 (by decide) (by decide),
   c7_backoff_policy.2.1 (fun _ => 429) 5 (fun _ => rfl),
   c7_backoff_policy.2.2 0⟩

/-! ## C2 — the configured request cap is never enforced -/

/-- C2 (code bug): the configured maximum request count has no effect
on the run — `mainRun` is literally independent of it — and a concrete
run configured with a cap of 1 issues 3 upstream requests.  In the
source, `MAX_REQUESTS` is read and logged and `main`'s catch even
looks for a `'Daily request cap hit'` error, but `gate()` only
increments `REQUESTS` and nothing ever compares the counter to the
cap or throws that error. -/
theorem c2_request_cap_not_enforced :
    (∀ m₁ m₂ fetchPage mps mg fuel states,
       mainRun m₁ fetchPage mps mg fuel states = mainRun m₂ fetchPage mps mg fuel states) ∧
    mainRun 1 upstream1 0 0 5 ["NY"] = some ([("NY", [toClinic sharedCand])], 3) ∧
    1 < 3 := by
  refine ⟨fun _ _ _ _ _ _ _ => rfl, by decide, by decide⟩

/-! ## C10 — searchDermClinics returns [] on every failure path -/

/-- C10: every failure path of `searchDermClinics` — missing API key,
the fetch throwing, a response still not OK after the retries, or an
exception while reading/transforming the payload — yields `[]`, and a
successful query with zero results also yields `[]`, so the two are
indistinguishable to the caller. -/
theorem c10_empty_on_failure :
    (∀ net body, searchDermClinics "" net body = []) ∧
    (∀ apiKey msg body, searchDermClinics apiKey (.error msg) body = []) ∧
    (∀ apiKey resp body, respOk (fetchWithBackoff resp 5).1 = false →
       searchDermClinics apiKey (.ok resp) body = []) ∧
    (∀ apiKey resp msg, searchDermClinics apiKey (.ok resp) (.error msg) = []) ∧
    (∀ apiKey resp, searchDermClinics apiKey (.ok resp) (.ok []) = []) := by
  refine ⟨?_, ?_, ?_, ?_, ?_⟩
  · intro net body
    simp [searchDermClinics]
  · intro apiKey msg body
    simp only [searchDermClinics]
    split <;> rfl
  · intro apiKey resp body h
    simp only [searchDermClinics, h]
    split <;> simp
  · intro apiKey resp msg
    simp only [searchDermClinics]
    split <;> [rfl; split <;> rfl]
  · intro apiKey resp
    simp only [searchDermClinics, transformPlacesResponse, List.filterMap_nil]
    split <;> [rfl; split <;> rfl]

/-- C10 witness: the four failure paths and the genuinely-empty path,
at concrete inputs, all return `[]`. -/
theorem c10_empty_on_failure_witness :
    searchDermClinics "" (.ok fun _ => 200) (.ok [sharedCand]) = [] ∧
    searchDermClinics "key" (.error "network down") (.ok [sharedCand]) = [] ∧
    respOk (fetchWithBackoff (fun _ => 403) 5).1 = false ∧
    searchDermClinics "key" (.ok fun _ => 403) (.ok [sharedCand]) = [] ∧
    searchDermClinics "key" (.ok fun _ => 200) (.error "malformed body") = [] ∧
    searchDermClinics "key" (.ok fun _ => 200) (.ok []) = [] :=
  ⟨c10_empty_on_failure.1 (.ok fun _ => 200) (.ok [sharedCand]),
   c10_empty_on_failure.2.1 "key" "network down" (.ok [sharedCand]),
   by decide,
   c10_empty_on_failure.2.2.1 "key" (fun _ => 403) (.ok [sharedCand]) (by decide),
   c10_empty_on_failure.2.2.2.1 "key" (fun _ => 200) "malformed body",
   c10_empty_on_failure.2.2.2.2 "key" (fun _ => 200)⟩

/-! ## C5 — open-now interval semantics -/

/-- Modelled from the spec: "convert both endpoints to
minutes-since-midnight honoring 12-hour/AM-PM semantics including the
12 AM → 00:00 and 12 PM → 12:00 edge cases". -/
def spec12to24 (h m : Nat) (isPM : Bool) : Nat :=
  if isPM then (if h = 12 then 12 * 60 + m else h * 60 + m + 12 * 60)
  else (if h = 12 then m else h * 60 + m)

/-- The code's sequential-if conversion agrees with the spec's
description of 12-hour semantics on all inputs. -/
theorem to24_eq_spec (h m : Nat) (pm : Bool) : to24 h m pm = spec12to24 h m pm := by
  cases pm <;> by_cases hh : h = 12 <;> simp [to24, spec12to24, hh]

/-- C5: whenever today's line is found, is not marked closed, and
matches the `H:MM AM/PM – H:MM AM/PM` pattern with groups `g`, the
open-now result is exactly the `[open, close)` interval test at the
current minutes-since-midnight, with both endpoints converted by the
spec's 12-hour semantics (12 AM → 00:MM, 12 PM → 12:MM). -/
theorem c5_open_iff_in_interval (weekdayText : List String) (weekday line : String)
    (t : Nat) (g : TimeGroups)
    (hfind : weekdayText.find? (weekdayPred weekday) = some line)
    (hclosed : strContains (lowerStr line) "closed" = false)
    (hmatch : timeRangeMatch line = some g) :
    calculateOpenNowFromWeekdayText weekdayText weekday t =
      decide (spec12to24 g.openH g.openM g.openPM ≤ t ∧
              t < spec12to24 g.closeH g.closeM g.closePM) := by
  have hemp : weekdayText.isEmpty = false := by
    cases weekdayText with
    | nil => simp [List.find?] at hfind
    | cons a l => rfl
  simp only [calculateOpenNowFromWeekdayText, hemp, Bool.false_eq_true, if_false,
    hfind, hclosed, hmatch]
  simp [to24_eq_spec, Bool.decide_and]

/-- C5 witness: "Monday: 9:00 AM – 5:00 PM" at 16:59 on Monday is
open; at 17:00 it is closed (close bound exclusive). -/
theorem c5_open_iff_in_interval_witness :
    ["Monday: 9:00 AM – 5:00 PM"].find? (weekdayPred "Monday") =
      some "Monday: 9:00 AM – 5:00 PM" ∧
    strContains (lowerStr "Monday: 9:00 AM – 5:00 PM") "closed" = false ∧
    timeRangeMatch "Monday: 9:00 AM – 5:00 PM" = some ⟨9, 0, false, 5, 0, true⟩ ∧
    calculateOpenNowFromWeekdayText ["Monday: 9:00 AM – 5:00 PM"] "Monday" 1019 = true ∧
    calculateOpenNowFromWeekdayText ["Monday: 9:00 AM – 5:00 PM"] "Monday" 1020 = false := by
  refine ⟨by decide, by decide, by decide, ?_, ?_⟩
  · rw [c5_open_iff_in_interval ["Monday: 9:00 AM – 5:00 PM"] "Monday"
      "Monday: 9:00 AM – 5:00 PM" 1019 ⟨9, 0, false, 5, 0, true⟩
      (by decide) (by decide) (by decide)]
    decide
  · rw [c5_open_iff_in_interval ["Monday: 9:00 AM – 5:00 PM"] "Monday"
      "Monday: 9:00 AM – 5:00 PM" 1020 ⟨9, 0, false, 5, 0, true⟩
      (by decide) (by decide) (by decide)]
    decide

/-! ## C6 — fail-closed on missing, closed or unparseable lines -/

/-- C6: the open-now computation fails closed (it is a total function,
so no exception can escape): if no line starts with today's weekday
name, or the matched line contains "closed" (case-insensitively, via
lowercasing), or the line does not match the time-range pattern, the
result is `false`. -/
theorem c6_fail_closed (weekdayText : List String) (weekday : String) (t : Nat) :
    (weekdayText.find? (weekdayPred weekday) = none →
       calculateOpenNowFromWeekdayText weekdayText weekday t = false) ∧
    (∀ line, weekdayText.find? (weekdayPred weekday) = some line →
       strContains (lowerStr line) "closed" = true →
       calculateOpenNowFromWeekdayText weekdayText weekday t = false) ∧
    (∀ line, weekdayText.find? (weekdayPred weekday) = some line →
       timeRangeMatch line = none →
       calculateOpenNowFromWeekdayText weekdayText weekday t = false) := by
  refine ⟨?_, ?_, ?_⟩
  · intro hfind
    simp [calculateOpenNowFromWeekdayText, hfind]
  · intro line hfind hclosed
    simp [calculateOpenNowFromWeekdayText, hfind, hclosed]
  · intro line hfind hmatch
    simp [calculateOpenNowFromWeekdayText, hfind, hmatch]

/-- C6 witness: no Tuesday line ⇒ false; "Monday: Closed" ⇒ false;
"Monday: by appointment" (pattern mismatch) ⇒ false, all without any
exception (the function totally evaluates). -/
theorem c6_fail_closed_witness :
    (["Monday: by appointment"].find? (weekdayPred "Tuesday") = none ∧
     calculateOpenNowFromWeekdayText ["Monday: by appointment"] "Tuesday" 600 = false) ∧
    (["Monday: Closed"].find? (weekdayPred "Monday") = some "Monday: Closed" ∧
     strContains (lowerStr "Monday: Closed") "closed" = true ∧
     calculateOpenNowFromWeekdayText ["Monday: Closed"] "Monday" 600 = false) ∧
    (["Monday: by appointment"].find? (weekdayPred "Monday") = some "Monday: by appointment" ∧
     timeRangeMatch "Monday: by appointment" = none ∧
     calculateOpenNowFromWeekdayText ["Monday: by appointment"] "Monday" 600 = false) :=
  ⟨⟨by decide, (c6_fail_closed ["Monday: by appointment"] "Tuesday" 600).1 (by decide)⟩,
   ⟨by decide, by decide,
    (c6_fail_closed ["Monday: Closed"] "Monday" 600).2.1 "Monday: Closed" (by decide) (by decide)⟩,
   ⟨by decide, by decide,
    (c6_fail_closed ["Monday: by appointment"] "Monday" 600).2.2 "Monday: by appointment"
      (by decide) (by decide)⟩⟩

/-! ## C9 — grid generation covers the box inclusively, rounded -/

/-- Rounding is idempotent: `round6 ∘ round6 = round6`, so every coordinate `generateGridPoints`
emits (which is `round6` of a loop value) is exactly representable in
6 decimal places. -/
theorem round6_round6 (x : ℚ) : round6 (round6 x) = round6 x := by
  unfold round6
  rw [div_mul_cancel₀ _ (by norm_num : (1000000 : ℚ) ≠ 0), round_intCast]

/-- The test box of the claim: `{minLat:30, maxLat:30.6, minLng:-90,
maxLng:-89.4}`. -/
def claimBox : Bounds := ⟨30, 306/10, -90, -894/10⟩

/-- C9: on the claim's box with step 0.3 the generator emits exactly
9 points (3×3, upper bounds included), and in general every emitted
coordinate is a fixed point of `round6`, i.e. already rounded to 6
decimal places. -/
theorem c9_grid_cover :
    (generateGridPoints claimBox (3/10) 10).length = 9 ∧
    (∀ (b : Bounds) (s : ℚ) (fuel : Nat) (p : ℚ × ℚ),
       p ∈ generateGridPoints b s fuel → round6 p.1 = p.1 ∧ round6 p.2 = p.2) := by
  constructor
  · norm_num [generateGridPoints, gridAxis, claimBox]
  · intro b s fuel p hp
    simp only [generateGridPoints, List.mem_flatMap, List.mem_map] at hp
    obtain ⟨lat, -, lng, -, rfl⟩ := hp
    exact ⟨round6_round6 lat, round6_round6 lng⟩

/-- C9 witness: a concrete emitted point is `round6`-fixed. -/
theorem c9_grid_cover_witness :
    ((30 : ℚ), (-90 : ℚ)) ∈ generateGridPoints claimBox (3/10) 10 ∧
    round6 (30 : ℚ) = 30 ∧ round6 (-90 : ℚ) = -90 := by
  have hmem : ((30 : ℚ), (-90 : ℚ)) ∈ generateGridPoints claimBox (3/10) 10 := by
    norm_num [generateGridPoints, gridAxis, claimBox, round6, round_eq]
  exact ⟨hmem, c9_grid_cover.2 claimBox (3/10) 10 (30, -90) hmem⟩

/-! ## C8 — loop boundedness: true for the gateway and the library
pagination, false for `collectState` -/

/-- An upstream that returns a continuation token on every page. -/
def tokenForever : FetchPage := fun _ _ => .ok ([], some "tok")

/-- C8: the gateway's retry loop makes at most `maxRetries + 1`
calls, and `searchDermClinicsText`'s pagination fetches at most
`max pageLimitPerQuery 1` pages per query — but `collectState`'s
`do … while (pageToken)` loop has no page bound at all
(`pagesForQuery` is incremented and never consulted): against an
upstream that always returns a token it never completes, for any
amount of fuel. -/
theorem c8_loop_bounds :
    (∀ (resp : Nat → Nat) (n : Nat), (fetchWithBackoff resp n).2 ≤ n + 1) ∧
    (∀ (pageFn : TextPageFn) (q : String) (rem : Nat) (tok : Option String)
       (st : List (Option String) × List Clinic),
       (textQueryGo pageFn q rem tok st).2 ≤ max rem 1) ∧
    (∀ (mps mg : Nat) (q : String) (fuel : Nat) (tok : Option String) (st : CState),
       queryPages tokenForever mps mg q fuel tok st = none) := by
  refine ⟨?_, ?_, ?_⟩
  · intro resp n
    have key : ∀ rem call, (backoffGo resp rem call).2 ≤ call + rem + 1 := by
      intro rem
      induction rem with
      | zero =>
        intro call
        rw [backoffGo_unfold]
        cases hOk : respOk (resp call) <;> cases hRetry : retryableStatus (resp call) <;>
          simp [hOk, hRetry]
      | succ r ih =>
        intro call
        have hih := ih (call + 1)
        rw [backoffGo_unfold]
        cases hOk : respOk (resp call) <;> cases hRetry : retryableStatus (resp call)
        all_goals simp [hOk, hRetry]
        all_goals omega
    have h := key n 0
    simpa [fetchWithBackoff] using h
  · intro pageFn q rem
    induction rem using Nat.strong_induction_on with
    | _ rem ih =>
      intro tok st
      rcases rem with _ | (_ | r)
      · simp [textQueryGo]
      · simp [textQueryGo]
      · rcases hfetch : pageFn q tok with ⟨places, nextTok⟩
        cases nextTok with
        | none => simp [textQueryGo, hfetch]
        | some t =>
          have hrec := ih (r + 1) (by omega) (some t)
            (textDedup st (transformPlacesResponse places))
          simp only [textQueryGo, hfetch]
          omega
  · intro mps mg q fuel
    induction fuel with
    | zero => intro tok st; rfl
    | succ f ih =>
      intro tok st
      rw [queryPages]
      simp only [tokenForever, processPlaces, normToken]
      rw [if_neg (by decide)]
      exact ih (some "tok") _

/-! ## C1 — dedup is per collector scope, not global across jurisdictions -/

/-- C1 counterexample: in a run over two states, an upstream serving
the same candidate for every query stores TWO clinics with the same
`place_id` — one in each state's payload — because `collectState`
creates a fresh `seen` set per state.  The claim's "at most one stored
Clinic per identifier anywhere in the run" fails across
jurisdictions. -/
theorem c1_counterexample :
    mainRun 800 upstream1 0 0 5 ["NY", "NJ"] =
      some ([("NY", [toClinic sharedCand]), ("NJ", [toClinic sharedCand])], 6) ∧
    (toClinic sharedCand).place_id = some "PID1" := by
  exact ⟨by decide, by decide⟩

/-- The dedup invariant of one collector scope: every stored clinic's
identifier is in the `seen` set, and the stored identifiers are
pairwise distinct. -/
def SeenInv (st : CState) : Prop :=
  (∀ c ∈ st.clinics, ∃ id, c.place_id = some id ∧ id ∈ st.seen) ∧
  (st.clinics.map Clinic.place_id).Nodup

theorem seenInv_insert {st : CState} {p : Candidate} {id : String}
    (hinv : SeenInv st) (hid : p.id = some id) (hnot : id ∉ st.seen) :
    SeenInv { st with
      seen := id :: st.seen
      clinics := st.clinics ++ [toClinic p]
      globalClinics := st.globalClinics + 1 } := by
  obtain ⟨hmem, hnd⟩ := hinv
  constructor
  · intro c hc
    simp only [List.mem_append, List.mem_singleton] at hc
    rcases hc with hc | rfl
    · obtain ⟨i, hi, hiseen⟩ := hmem c hc
      exact ⟨i, hi, List.mem_cons_of_mem _ hiseen⟩
    · exact ⟨id, by simp [toClinic, hid], List.mem_cons_self _ _⟩
  · rw [List.map_append, List.nodup_append]
    refine ⟨hnd, by simp, ?_⟩
    intro x hx hx'
    simp only [List.map_cons, List.map_nil, List.mem_cons, List.not_mem_nil, or_false,
      toClinic] at hx'
    subst hx'
    simp only [List.mem_map] at hx
    obtain ⟨c, hc, hcid⟩ := hx
    obtain ⟨i, hi, hiseen⟩ := hmem c hc
    rw [hi, hid] at hcid
    exact hnot (Option.some.inj hcid ▸ hiseen)

theorem processPlaces_inv (mps mg : Nat) :
    ∀ (ps : List Candidate) (st st' : CState) (b : Bool),
      SeenInv st → processPlaces mps mg ps st = .ok (st', b) →
      SeenInv st' ∧ ∀ id ∈ st.seen, id ∈ st'.seen := by
  intro ps
  induction ps with
  | nil =>
    intro st st' b hinv h
    simp only [processPlaces, Except.ok.injEq, Prod.mk.injEq] at h
    obtain ⟨rfl, -⟩ := h
    exact ⟨hinv, fun _ hi => hi⟩
  | cons p ps ih =>
    intro st st' b hinv h
    simp only [processPlaces] at h
    by_cases hacc : acceptByDermHeuristics p = false
    · rw [if_pos hacc] at h
      exact ih st st' b hinv h
    · rw [if_neg hacc] at h
      cases hid : p.id with
      | none =>
        rw [hid] at h
        exact ih st st' b hinv h
      | some id =>
        rw [hid] at h
        simp only at h
        by_cases hseen : id = "" ∨ id ∈ st.seen
        · rw [if_pos hseen] at h
          exact ih st st' b hinv h
        · rw [if_neg hseen] at h
          push_neg at hseen
          have hins := seenInv_insert hinv hid hseen.2
          by_cases hcap : mps ≠ 0 ∧ mps ≤ (st.clinics ++ [toClinic p]).length
          · rw [if_pos (by simpa using hcap)] at h
            simp only [Except.ok.injEq, Prod.mk.injEq] at h
            obtain ⟨rfl, -⟩ := h
            exact ⟨hins, fun i hi => List.mem_cons_of_mem _ hi⟩
          · rw [if_neg (by simpa using hcap)] at h
            by_cases hglob : mg ≠ 0 ∧ mg ≤ st.globalClinics + 1
            · rw [if_pos (by simpa using hglob)] at h
              simp at h
            · rw [if_neg (by simpa using hglob)] at h
              obtain ⟨hinv', hmono⟩ := ih _ st' b hins h
              exact ⟨hinv', fun i hi => hmono i (List.mem_cons_of_mem _ hi)⟩

theorem queryPages_inv (fetchPage : FetchPage) (mps mg : Nat) (q : String) :
    ∀ (fuel : Nat) (tok : Option String) (st st' : CState),
      SeenInv st → queryPages fetchPage mps mg q fuel tok st = some (.ok st') →
      SeenInv st' ∧ ∀ id ∈ st.seen, id ∈ st'.seen := by
  intro fuel
  induction fuel with
  | zero =>
    intro tok st st' _ h
    simp [queryPages] at h
  | succ f ih =>
    intro tok st st' hinv h
    rw [queryPages] at h
    cases hfp : fetchPage q tok with
    | error e =>
      rw [hfp] at h
      simp at h
    | ok pr =>
      rcases pr with ⟨places, nextTok⟩
      rw [hfp] at h
      simp only at h
      cases hpp : processPlaces mps mg places
          { st with requests := st.requests + 1 } with
      | error e =>
        rw [hpp] at h
        simp at h
      | ok r =>
        rcases r with ⟨st2, brk⟩
        rw [hpp] at h
        simp only at h
        obtain ⟨hinv2, hmono2⟩ :=
          processPlaces_inv mps mg places { st with requests := st.requests + 1 } st2 brk
            hinv hpp
        cases hnt : normToken nextTok with
        | none =>
          rw [hnt] at h
          simp only [Option.some.injEq, Except.ok.injEq] at h
          subst h
          exact ⟨hinv2, hmono2⟩
        | some t =>
          rw [hnt] at h
          obtain ⟨hinv3, hmono3⟩ := ih (some t) st2 st' hinv2 h
          exact ⟨hinv3, fun i hi => hmono3 i (hmono2 i hi)⟩

theorem queriesLoop_inv (fetchPage : FetchPage) (mps mg fuel : Nat) :
    ∀ (qs : List String) (st st' : CState),
      SeenInv st → queriesLoop fetchPage mps mg fuel qs st = some (.ok st') →
      SeenInv st' := by
  intro qs
  induction qs with
  | nil =>
    intro st st' hinv h
    simp only [queriesLoop, Option.some.injEq, Except.ok.injEq] at h
    exact h ▸ hinv
  | cons q qs ih =>
    intro st st' hinv h
    rw [queriesLoop] at h
    cases hqp : queryPages fetchPage mps mg q fuel none st with
    | none =>
      rw [hqp] at h
      simp at h
    | some r =>
      rw [hqp] at h
      cases r with
      | error e => simp at h
      | ok st2 =>
        simp only at h
        obtain ⟨hinv2, -⟩ := queryPages_inv fetchPage mps mg q fuel none st st2 hinv hqp
        exact ih st2 st' hinv2 h

/-- Dedup invariant of the `searchDermClinicsText` collector. -/
def TextInv (st : List (Option String) × List Clinic) : Prop :=
  (∀ c ∈ st.2, c.place_id ∈ st.1) ∧ (st.2.map Clinic.place_id).Nodup

theorem textDedup_inv :
    ∀ (cs : List Clinic) (st : List (Option String) × List Clinic),
      TextInv st → TextInv (textDedup st cs) := by
  intro cs
  induction cs with
  | nil =>
    intro st h
    rcases st with ⟨seen, all⟩
    simpa [textDedup] using h
  | cons c cs ih =>
    intro st h
    rcases st with ⟨seen, all⟩
    obtain ⟨hmem, hnd⟩ := h
    by_cases hc : c.place_id ∈ seen
    · rw [textDedup, if_pos hc]
      exact ih (seen, all) ⟨hmem, hnd⟩
    · rw [textDedup, if_neg hc]
      apply ih
      constructor
      · intro d hd
        simp only [List.mem_append, List.mem_singleton] at hd
        rcases hd with hd | rfl
        · exact List.mem_cons_of_mem _ (hmem d hd)
        · exact List.mem_cons_self _ _
      · rw [List.map_append, List.nodup_append]
        refine ⟨hnd, by simp, ?_⟩
        intro x hx hx'
        simp only [List.map_cons, List.map_nil, List.mem_cons, List.not_mem_nil,
          or_false] at hx'
        subst hx'
        simp only [List.mem_map] at hx
        obtain ⟨d, hd, hdid⟩ := hx
        exact hc (hdid ▸ hmem d hd)

theorem textQueryGo_inv (pageFn : TextPageFn) (q : String) :
    ∀ (rem : Nat) (tok : Option String) (st : List (Option String) × List Clinic),
      TextInv st → TextInv (textQueryGo pageFn q rem tok st).1 := by
  intro rem
  induction rem using Nat.strong_induction_on with
  | _ rem ih =>
    intro tok st hinv
    rcases rem with _ | (_ | r)
    · simp only [textQueryGo]
      exact textDedup_inv _ _ hinv
    · simp only [textQueryGo]
      exact textDedup_inv _ _ hinv
    · rcases hfetch : pageFn q tok with ⟨places, nextTok⟩
      cases nextTok with
      | none =>
        simp only [textQueryGo, hfetch]
        exact textDedup_inv _ _ hinv
      | some t =>
        simp only [textQueryGo, hfetch]
        exact ih (r + 1) (by omega) (some t) _ (textDedup_inv _ _ hinv)

theorem textQueriesGo_nodup (pageFn : TextPageFn) (limit : Nat) :
    ∀ (qs : List String) (st : List (Option String) × List Clinic),
      TextInv st → ((textQueriesGo pageFn limit qs st).2.map Clinic.place_id).Nodup := by
  intro qs
  induction qs with
  | nil =>
    intro st hinv
    simpa [textQueriesGo] using hinv.2
  | cons q qs ih =>
    intro st hinv
    rw [textQueriesGo]
    exact ih _ (textQueryGo_inv pageFn q limit none st hinv)

/-- C1 (amended): deduplication is per collector scope.  (i) Within
one `collectState` call — across all pages of all three queries of
that jurisdiction — the stored clinics carry pairwise-distinct place
identifiers.  (ii) A candidate whose identifier is already in the
scope's `seen` set is a no-op: the collector state is untouched, so
only the first successfully classified occurrence is kept.
(iii) Within one `searchDermClinicsText` call the stored identifiers
are likewise pairwise distinct across all queries and pages.  (Across
different jurisdictions the same identifier may be stored once per
jurisdiction: see the counterexample.) -/
theorem c1_per_scope_dedup :
    (∀ (fetchPage : FetchPage) (mps mg fuel : Nat) (stateCode : String)
       (r g : Nat) (st' : CState),
       collectState fetchPage mps mg fuel stateCode r g = some (.ok st') →
       (st'.clinics.map Clinic.place_id).Nodup) ∧
    (∀ (mps mg : Nat) (p : Candidate) (ps : List Candidate) (st : CState) (id : String),
       p.id = some id → id ∈ st.seen →
       processPlaces mps mg (p :: ps) st = processPlaces mps mg ps st) ∧
    (∀ (pageFn : TextPageFn) (queries : List String) (limit : Nat),
       ((searchDermClinicsText pageFn queries limit).map Clinic.place_id).Nodup) := by
  refine ⟨?_, ?_, ?_⟩
  · intro fetchPage mps mg fuel stateCode r g st' h
    have hinit : SeenInv { seen := [], clinics := [], requests := r, globalClinics := g } := by
      constructor
      · intro c hc
        simp at hc
      · simp
    exact (queriesLoop_inv fetchPage mps mg fuel (stateQueries stateCode) _ st' hinit h).2
  · intro mps mg p ps st id hid hseen
    simp only [processPlaces, hid]
    by_cases hacc : acceptByDermHeuristics p = false
    · rw [if_pos hacc]
    · rw [if_neg hacc]
      rw [if_pos (Or.inr hseen)]
  · intro pageFn queries limit
    exact textQueriesGo_nodup pageFn limit queries ([], []) ⟨by simp, by simp⟩

/-- C1 witness: a concrete one-state collection stores the shared
candidate exactly once with a `Nodup` identifier list; re-presenting
the already-seen candidate to the collector is a no-op; and a concrete
two-query text search call also yields `Nodup` identifiers. -/
theorem c1_per_scope_dedup_witness :
    (collectState upstream1 0 0 5 "NY" 0 0 = some (.ok nyRunState) ∧
     (nyRunState.clinics.map Clinic.place_id).Nodup) ∧
    (sharedCand.id = some "PID1" ∧ "PID1" ∈ nyRunState.seen ∧
     processPlaces 0 0 [sharedCand] nyRunState = processPlaces 0 0 [] nyRunState) ∧
    ((searchDermClinicsText (fun _ _ => ([sharedCand], some "t")) ["a", "b"] 3).map
        Clinic.place_id).Nodup :=
  ⟨⟨by decide, c1_per_scope_dedup.1 upstream1 0 0 5 "NY" 0 0 nyRunState (by decide)⟩,
   ⟨by decide, by decide,
    c1_per_scope_dedup.2.1 0 0 sharedCand [] nyRunState "PID1" (by decide) (by decide)⟩,
   c1_per_scope_dedup.2.2 (fun _ _ => ([sharedCand], some "t")) ["a", "b"] 3⟩

end DCBuild
